import Mathlib

/-!
Shallow embedding of `tracey.go` (sujitvp/go-tracey), a function enter/exit
tracer.  Pure helpers of the source become Lean functions; the package-level
mutable state (`currentDepth`, `entryTime`, tracey.go lines 61-68) becomes an
explicit `GlobalState` record threaded through the operations; the log sink
(`options.CustomLogger`) is modelled as the list of emitted lines each
operation returns.  Facts the Go runtime supplies at a call site (goroutine
id from `_getGID`, the caller frame from `runtime.Caller(2)`, the current
clock reading) are bundled in a `CallSite` record and passed in, since they
are inputs of the traced program's environment, not computed by the library.
Time is modelled as a `Nat` tick count; `time.Since t` is `now - t`, and a
missing map entry reads as the zero value `0`, exactly as a Go map read of an
absent key yields the zero `time.Time`.
-/

namespace Tracey

/-- A value passed through the variadic `...interface{}` list of the enter
function.  The library only ever inspects whether a value is a `string`
(type assertion `s[0].(string)`); every other value is just handed to
`fmt.Sprintf`.  Integers cover the non-string values the claims use. -/
inductive GoVal where
  | str (s : String)
  | intV (n : Int)
deriving DecidableEq, Repr

/-- Models the Go type assertion `_, ok := v.(string)`. -/
def GoVal.isString : GoVal → Bool
  | .str _ => true
  | .intV _ => false

/-- Mirror of the `Options` struct (tracey.go lines 26-57).  The
`CustomLogger` field is not represented: the sink is modelled as the list of
lines an operation emits. -/
structure Options where
  DisableTracing : Bool
  DisableDepthValue : Bool
  DisableNesting : Bool
  SpacesPerIndent : Nat
  EnterMessage : String
  ExitMessage : String
  EnableInstrumentation : Bool
deriving Repr

/-- The zero value of the Go `Options` struct, used by `New(nil)`. -/
def zeroOptions : Options :=
  { DisableTracing := false
    DisableDepthValue := false
    DisableNesting := false
    SpacesPerIndent := 0
    EnterMessage := ""
    ExitMessage := ""
    EnableInstrumentation := false }

/-- The package-level mutable state of tracey.go lines 61-68: `currentDepth.d`
(a map goroutine-id to int; a read of an absent key yields 0, so the map is a
total function) and `entryTime.t` (a map label to start time; `Option` keeps
track of which keys are present, a read of an absent key yields the zero
time).  The `*Alloc` flags record whether `New` has run the corresponding
`make(...)`. -/
structure GlobalState where
  depthAlloc : Bool
  depth : Nat → Int
  timeAlloc : Bool
  entryTime : String → Option Nat

/-- Runtime facts available at one enter/exit call site: the goroutine id
`_getGID()` would parse, whether `runtime.Caller(2)` succeeds, the raw
function name `runtime.FuncForPC(pc).Name()` would return, the `fl + itoa(fi)`
file/line fallback string, and the current clock reading. -/
structure CallSite where
  gid : Nat
  callerOk : Bool
  rawName : String
  fileLine : String
  now : Nat

/-- Pointwise update of the depth map, modelling `currentDepth.d[gid] = v`. -/
def updDepth (f : Nat → Int) (g : Nat) (v : Int) : Nat → Int :=
  fun x => if x = g then v else f x

/-- Pointwise update of the timing map; `none` models `delete(entryTime.t, k)`. -/
def updTime (f : String → Option Nat) (k : String) (v : Option Nat) :
    String → Option Nat :=
  fun x => if x = k then v else f x

/-- The suffix of a character list after its last `'/'`; the whole list when
no `'/'` occurs. -/
def afterLastSlash (l : List Char) : List Char :=
  (l.reverse.takeWhile (fun c => c ≠ '/')).reverse

/-- Models `RE_stripFnPreamble.ReplaceAllString(name, "$1")` with the pattern
"caret .* slash (.*) dollar" (tracey.go line 20): when the name contains a
`'/'` the greedy `.*` consumes up to the last one and the capture keeps what
follows; when it contains none the regex does not match and the string is
returned unchanged.  Go runtime function names contain no newline, so the
RE2 dot-excludes-newline subtlety never arises. -/
def stripFnPreamble (s : String) : String :=
  String.mk (afterLastSlash s.data)

/-- Character-level worker for `replaceFN`. -/
def replaceFNChars (fnName : List Char) : List Char → List Char
  | '$' :: 'F' :: 'N' :: rest => fnName ++ replaceFNChars fnName rest
  | c :: rest => c :: replaceFNChars fnName rest
  | [] => []

/-- Models `RE_detectFN.ReplaceAllString(msg, fnName)` (tracey.go line 202):
every occurrence of the literal token `$FN` is replaced by the resolved
function name.  Resolved Go function names contain no `'$'`, so Go's
group-reference expansion inside the replacement never fires. -/
def replaceFN (msg fnName : String) : String :=
  String.mk (replaceFNChars fnName.data msg.data)

/-- Rendering of a value under the `%d` verb. -/
def formatD : GoVal → String
  | .intV n => toString n
  | .str s => "%!d(string=" ++ s ++ ")"

/-- Rendering of a value under the `%s` verb. -/
def formatS : GoVal → String
  | .str s => s
  | .intV n => "%!s(int=" ++ toString n ++ ")"

/-- Character-level worker for `sprintf`. -/
def sprintfChars : List Char → List GoVal → List Char
  | '%' :: 'd' :: cs, a :: as => (formatD a).data ++ sprintfChars cs as
  | '%' :: 's' :: cs, a :: as => (formatS a).data ++ sprintfChars cs as
  | '%' :: '%' :: cs, as => '%' :: sprintfChars cs as
  | c :: cs, as => c :: sprintfChars cs as
  | [], _ => []

/-- Models `fmt.Sprintf(fmtStr, s[1:]...)` restricted to the verbs the
library's call sites use (`%d`, `%s`, `%%`); other characters are copied
verbatim. -/
def sprintf (f : String) (args : List GoVal) : String :=
  String.mk (sprintfChars f.data args)

/-- Mirror of `_getname` (tracey.go lines 169-204).  The name from the caller
frame is stripped with `stripFnPreamble`, falling back to `"<unknown>"` when
the frame lookup fails and to the file+line composite when the stripped name
is empty.  A single leading string argument becomes a literal suffix of the
tid tag; a leading string with further arguments is a format template for
them; any other argument shape leaves the message empty.  The final label is
the tid tag, `"]=>"`, and the message with `$FN` substituted. -/
def _getname (cs : CallSite) (s : List GoVal) : String :=
  let fnName0 := if cs.callerOk then stripFnPreamble cs.rawName else "<unknown>"
  let fnName := if fnName0 = "" then cs.fileLine else fnName0
  let tid := "[tid:" ++ toString cs.gid
  let tidMsg : String × String :=
    match s with
    | GoVal.str fmtStr :: rest =>
        if rest.isEmpty then (tid ++ " - " ++ fmtStr, "")
        else (tid, sprintf fmtStr rest)
    | _ => (tid, "")
  tidMsg.1 ++ "]=>" ++ replaceFN tidMsg.2 fnName

/-- Models `fmt.Sprintf("[%2d]", d)`: decimal, right-aligned, space-padded to
a minimum width of 2. -/
def pad2 (d : Int) : String :=
  let s := toString d
  if s.length < 2 then " " ++ s else s

/-- Mirror of `_spacify` (tracey.go lines 128-140), applied to the depth `d`
read from the depth map for the calling goroutine.  Reachable depths are
never negative (`_decrementDepth` clamps before releasing its lock), so the
`Int.toNat` in the repeat count agrees with Go's `strings.Repeat` on every
reachable state. -/
def _spacify (options : Options) (d : Int) : String :=
  if !options.DisableNesting then
    let spaces := String.mk (List.replicate (d.toNat * options.SpacesPerIndent) ' ')
    if !options.DisableDepthValue then "[" ++ pad2 d ++ "]" ++ spaces
    else spaces
  else ""

/-- Mirror of `_incrementDepth` (tracey.go lines 143-149). -/
def _incrementDepth (options : Options) (st : GlobalState) (gid : Nat) :
    GlobalState :=
  if !options.DisableNesting then
    { st with depth := updDepth st.depth gid (st.depth gid + 1) }
  else st

/-- The warning `_decrementDepth` prints through the sink on underflow. -/
def warningLine : String :=
  "Warning: depth became negative in tracey, when attempting to decrement."

/-- Mirror of `_decrementDepth` (tracey.go lines 153-167): the depth is
decremented; if the result is negative it is reset to 0 and one warning line
goes through the sink (the panic in the original upstream is commented out
in this source; nothing aborts).  Returns the new state and the emitted
lines. -/
def _decrementDepth (options : Options) (st : GlobalState) (gid : Nat) :
    GlobalState × List String :=
  if !options.DisableNesting then
    let d := st.depth gid - 1
    if d < 0 then
      ({ st with depth := updDepth st.depth gid 0 }, [warningLine])
    else
      ({ st with depth := updDepth st.depth gid d }, [])
  else (st, [])

/-- Models `time.Duration.String()` abstractly as the decimal tick count. -/
def durString (n : Nat) : String := toString n

/-- Mirror of `_exit` (tracey.go lines 211-225).  Depth is decremented first;
the label is rebuilt with no arguments; with instrumentation on, the start
time is read under the rebuilt label (zero when absent) and the variable
`fname` is mutated to carry the `" ... in <duration>"` suffix; the line is
printed with the post-decrement indent; finally `delete(entryTime.t, fname)`
runs — with the already-suffixed `fname` as its key, exactly as in the
source. -/
def _exit (options : Options) (st : GlobalState) (cs : CallSite) :
    GlobalState × List String :=
  let decRes := _decrementDepth options st cs.gid
  let st1 := decRes.1
  let fname0 := _getname cs []
  let fname :=
    if options.EnableInstrumentation then
      fname0 ++ " ... in " ++ durString (cs.now - ((st1.entryTime fname0).getD 0))
    else fname0
  let line := _spacify options (st1.depth cs.gid) ++ options.ExitMessage ++ fname
  let st2 :=
    if options.EnableInstrumentation then
      { st1 with entryTime := updTime st1.entryTime fname none }
    else st1
  (st2, decRes.2 ++ [line])

/-- Mirror of `_enter` (tracey.go lines 228-240).  The label is built from
the arguments; with instrumentation on, the current time is stored under the
label; the line is printed with the pre-increment indent; the deferred
`_incrementDepth` runs after the print, as the function returns. -/
def _enter (options : Options) (st : GlobalState) (cs : CallSite)
    (s : List GoVal) : GlobalState × List String :=
  let fname := _getname cs s
  let st1 :=
    if options.EnableInstrumentation then
      { st with entryTime := updTime st.entryTime fname (some cs.now) }
    else st
  let line := _spacify options (st1.depth cs.gid) ++ options.EnterMessage ++ fname
  let st2 := _incrementDepth options st1 cs.gid
  (st2, [line])

/-- The enter closure `New` hands out: a no-op when `DisableTracing` is set
(tracey.go lines 79-81), otherwise `_enter`. -/
def tracerEnter (options : Options) (st : GlobalState) (cs : CallSite)
    (s : List GoVal) : GlobalState × List String :=
  if options.DisableTracing then (st, []) else _enter options st cs s

/-- The exit closure returned by the enter closure: a no-op when
`DisableTracing` is set, otherwise `_exit`. -/
def tracerExit (options : Options) (st : GlobalState) (cs : CallSite) :
    GlobalState × List String :=
  if options.DisableTracing then (st, []) else _exit options st cs

/-- The option defaulting `New` performs (tracey.go lines 90-110): empty
enter/exit messages get their struct-tag defaults; `SpacesPerIndent` is
forced to 0 when nesting is disabled and defaulted to 2 when nesting is
enabled and it is unset.  The struct tags are fixed constants here, in place
of the reflection walk. -/
def applyDefaults (options : Options) : Options :=
  let o1 := if options.EnterMessage = "" then
              { options with EnterMessage := "ENTER: " } else options
  let o2 := if o1.ExitMessage = "" then
              { o1 with ExitMessage := "EXIT:  " } else o1
  if o2.DisableNesting then { o2 with SpacesPerIndent := 0 }
  else if o2.SpacesPerIndent = 0 then { o2 with SpacesPerIndent := 2 }
  else o2

/-- The options record the closures returned by `New` (tracey.go lines
72-123) close over: the caller's options (the zero value for `New(nil)`);
when tracing is disabled the record is returned as-is, since the no-op
closures never read it. -/
def New (opts : Option Options) : Options :=
  let options := opts.getD zeroOptions
  if options.DisableTracing then options
  else applyDefaults options

/-- The effect of one `New` call on the package-level state: nothing when
tracing is disabled (the function returns before any `make`); otherwise
`currentDepth.d` is reallocated fresh iff nesting is enabled (line 105) and
`entryTime.t` is reallocated fresh iff instrumentation is enabled (line
122).  Both maps are package-level, so a later `New` overwrites the maps
every earlier tracer instance is still using. -/
def NewState (opts : Option Options) (st : GlobalState) : GlobalState :=
  let options := opts.getD zeroOptions
  if options.DisableTracing then st
  else
    let st1 := if options.DisableNesting then st
               else { st with depthAlloc := true, depth := fun _ => 0 }
    if options.EnableInstrumentation then
      { st1 with timeAlloc := true, entryTime := fun _ => none }
    else st1

/-- One call through a tracer's public surface: the variadic enter closure or
the exit closure it returned. -/
inductive TraceOp where
  | enterOp (cs : CallSite) (args : List GoVal)
  | exitOp (cs : CallSite)

/-- Runs a sequence of enter/exit calls through one tracer's closures,
threading the package-level state and accumulating all sink output. -/
def runOps (options : Options) : List TraceOp → GlobalState → GlobalState × List String
  | [], st => (st, [])
  | op :: ops, st =>
      let r1 := match op with
        | TraceOp.enterOp cs args => tracerEnter options st cs args
        | TraceOp.exitOp cs => tracerExit options st cs
      let r2 := runOps options ops r1.1
      (r2.1, r1.2 ++ r2.2)

/-- A strictly nested call structure on one execution context: each node is a
traced call (its enter arguments) together with the traced calls performed
inside it, exactly the `defer Trace(...)()` discipline of the README. -/
inductive CallTree where
  | node (args : List GoVal) (children : List CallTree)

/-- Executes a forest of strictly nested traced calls on a single execution
context: for each tree, the enter call, then the children, then the matching
exit call (the deferred closure). -/
def runForest (options : Options) (cs : CallSite) :
    List CallTree → GlobalState → GlobalState × List String
  | [], st => (st, [])
  | CallTree.node args children :: rest, st =>
      let r1 := tracerEnter options st cs args
      let r2 := runForest options cs children r1.1
      let r3 := tracerExit options r2.1 cs
      let r4 := runForest options cs rest r3.1
      (r4.1, r1.2 ++ (r2.2 ++ (r3.2 ++ r4.2)))
termination_by l _ => sizeOf l
decreasing_by all_goals simp_wf <;> omega

/-- The name `_exit` prints after the exit-message prefix, expressed against
the entry-time map in force when the line is built: the rebuilt no-argument
label, with the `" ... in <duration>"` suffix when instrumentation is on. -/
def exitFname (options : Options) (et : String → Option Nat) (cs : CallSite) : String :=
  if options.EnableInstrumentation then
    _getname cs [] ++ " ... in " ++ durString (cs.now - ((et (_getname cs [])).getD 0))
  else _getname cs []

/-- The package-level state before any `New` has run: nothing allocated,
both maps at their zero values. -/
def gInit : GlobalState := ⟨false, fun _ => 0, false, fun _ => none⟩

/-- A tracer built with instrumentation enabled and otherwise default
options. -/
def optsInstr : Options := New (some { zeroOptions with EnableInstrumentation := true })

/-- The package-level state right after building `optsInstr`. -/
def stInstr : GlobalState :=
  NewState (some { zeroOptions with EnableInstrumentation := true }) gInit

/-- A first tracer instance, built as `New(nil)`. -/
def optsA : Options := New none

/-- A second, independently constructed tracer instance with its own enter
message, so that its output is recognisable. -/
def optsB : Options := New (some { zeroOptions with EnterMessage := "B-ENTER: " })

/-- The package-level state after both `New` calls (`optsA`, then `optsB`)
have run: both reallocate the same package-level depth map. -/
def stShared : GlobalState :=
  NewState (some { zeroOptions with EnterMessage := "B-ENTER: " }) (NewState none gInit)

/-! Helper lemmas shared by several claim theorems. -/

theorem strEqOfData (a b : String) (h : a.data = b.data) : a = b :=
  congrArg String.mk h

theorem dataAppend (a b : String) : (a ++ b).data = a.data ++ b.data := by
  cases a; cases b; rfl

theorem dataEmpty : ("" : String).data = [] := rfl

theorem appendEmpty (a : String) : a ++ "" = a :=
  strEqOfData _ _ (by rw [dataAppend, dataEmpty, List.append_nil])

theorem emptyAppend (a : String) : "" ++ a = a :=
  strEqOfData _ _ (by rw [dataAppend, dataEmpty, List.nil_append])

theorem replaceFN_empty (f : String) : replaceFN "" f = "" := rfl

theorem takeWhile_append_slash (m k : List Char) (hm : ∀ c ∈ m, c ≠ '/') :
    (m ++ '/' :: k).takeWhile (fun c => c ≠ '/') = m := by
  induction m with
  | nil =>
      apply List.takeWhile_cons_of_neg
      simp
  | cons c m ih =>
      have hc : (fun x => decide (x ≠ '/')) c = true := by
        simp [hm c (by simp)]
      have step : List.takeWhile (fun x => decide (x ≠ '/')) (c :: (m ++ '/' :: k)) =
          c :: List.takeWhile (fun x => decide (x ≠ '/')) (m ++ '/' :: k) :=
        List.takeWhile_cons_of_pos hc
      rw [List.cons_append, step, ih (fun x hx => hm x (by simp [hx]))]

theorem takeWhile_all_no_slash (m : List Char) (hm : ∀ c ∈ m, c ≠ '/') :
    m.takeWhile (fun c => c ≠ '/') = m := by
  induction m with
  | nil => rfl
  | cons c m ih =>
      have hc : (fun x => decide (x ≠ '/')) c = true := by
        simp [hm c (by simp)]
      have step : List.takeWhile (fun x => decide (x ≠ '/')) (c :: m) =
          c :: List.takeWhile (fun x => decide (x ≠ '/')) m :=
        List.takeWhile_cons_of_pos hc
      rw [step, ih (fun x hx => hm x (by simp [hx]))]

theorem decrement_entryTime (options : Options) (st : GlobalState) (g : Nat) :
    (_decrementDepth options st g).1.entryTime = st.entryTime := by
  unfold _decrementDepth
  dsimp only
  split
  · split <;> rfl
  · rfl

theorem enter_line (options : Options) (st : GlobalState) (cs : CallSite)
    (args : List GoVal) (hT : options.DisableTracing = false) :
    (tracerEnter options st cs args).2 =
      [_spacify options (st.depth cs.gid) ++ options.EnterMessage ++ _getname cs args] := by
  simp only [tracerEnter, hT, Bool.false_eq_true, if_false, _enter]
  split <;> rfl

theorem enter_depth (options : Options) (st : GlobalState) (cs : CallSite)
    (args : List GoVal) (hT : options.DisableTracing = false) :
    (tracerEnter options st cs args).1.depth cs.gid =
      if options.DisableNesting then st.depth cs.gid else st.depth cs.gid + 1 := by
  simp only [tracerEnter, hT, Bool.false_eq_true, if_false, _enter, _incrementDepth]
  cases hN : options.DisableNesting <;>
    simp [hN, updDepth] <;> split <;> rfl

theorem exit_depth (options : Options) (st : GlobalState) (cs : CallSite)
    (hT : options.DisableTracing = false)
    (hd : 0 < st.depth cs.gid ∨ options.DisableNesting = true) :
    (tracerExit options st cs).1.depth cs.gid =
      if options.DisableNesting then st.depth cs.gid else st.depth cs.gid - 1 := by
  cases hN : options.DisableNesting with
  | true =>
      simp only [tracerExit, hT, Bool.false_eq_true, if_false, _exit,
        _decrementDepth, hN, Bool.not_true, Bool.false_eq_true, if_false, if_true]
      split <;> rfl
  | false =>
      rcases hd with hpos | hcontra
      · have hnn : ¬ (st.depth cs.gid - 1 < 0) := by omega
        simp only [tracerExit, hT, Bool.false_eq_true, if_false, _exit,
          _decrementDepth, hN, Bool.not_false, if_true, hnn, if_false]
        split <;> simp [updDepth]
      · rw [hN] at hcontra; cases hcontra

theorem exit_line (options : Options) (st : GlobalState) (cs : CallSite)
    (hT : options.DisableTracing = false)
    (hd : 0 < st.depth cs.gid ∨ options.DisableNesting = true) :
    (tracerExit options st cs).2 =
      [_spacify options
          (if options.DisableNesting then st.depth cs.gid else st.depth cs.gid - 1)
        ++ options.ExitMessage ++ exitFname options st.entryTime cs] := by
  cases hN : options.DisableNesting with
  | true =>
      simp only [tracerExit, hT, Bool.false_eq_true, if_false, _exit,
        _decrementDepth, hN, Bool.not_true, if_false, if_true, exitFname]
      split <;> rfl
  | false =>
      rcases hd with hpos | hcontra
      · have hnn : ¬ (st.depth cs.gid - 1 < 0) := by omega
        simp only [tracerExit, hT, Bool.false_eq_true, if_false, _exit,
          _decrementDepth, hN, Bool.not_false, if_true, hnn, if_false, exitFname]
        split <;> simp [updDepth]
      · rw [hN] at hcontra; cases hcontra

theorem runForest_depth_restore (options : Options) (cs : CallSite)
    (hT : options.DisableTracing = false) :
    ∀ (f : List CallTree) (st : GlobalState), 0 ≤ st.depth cs.gid →
      (runForest options cs f st).1.depth cs.gid = st.depth cs.gid := by
  intro f st
  induction f, st using runForest.induct options cs with
  | case1 st => intro _; simp [runForest]
  | case2 args children rest st r1 r2 r3 ihA ih1 ih2 =>
      intro h
      have h1 := enter_depth options st cs args hT
      have h1n : 0 ≤ (tracerEnter options st cs args).1.depth cs.gid := by
        rw [h1]; split <;> omega
      have h2 : (runForest options cs children
            (tracerEnter options st cs args).1).1.depth cs.gid =
          (tracerEnter options st cs args).1.depth cs.gid := ih1 h1n
      have hpos : 0 < (runForest options cs children
            (tracerEnter options st cs args).1).1.depth cs.gid ∨
          options.DisableNesting = true := by
        rw [h2, h1]
        cases hN : options.DisableNesting with
        | false => refine Or.inl ?_; simp [hN]; omega
        | true => exact Or.inr rfl
      have h3 := exit_depth options _ cs hT hpos
      have h3n : 0 ≤ (tracerExit options (runForest options cs children
            (tracerEnter options st cs args).1).1 cs).1.depth cs.gid := by
        rw [h3, h2, h1]; cases hN : options.DisableNesting <;> simp <;> omega
      have h4 : (runForest options cs rest (tracerExit options (runForest options cs
            children (tracerEnter options st cs args).1).1 cs).1).1.depth cs.gid =
          (tracerExit options (runForest options cs children
            (tracerEnter options st cs args).1).1 cs).1.depth cs.gid := ih2 h3n
      simp only [runForest]
      rw [h4, h3, h2, h1]
      cases hN : options.DisableNesting <;> simp

/-! Claim theorems. -/

/-- C4: with nesting enabled, a decrement on a context whose stored depth is
already 0 clamps the stored depth back to 0, emits exactly one warning line
through the sink, and no depth visible in a subsequent read is negative (the
operation is total — the original panic is commented out in the source, so
nothing aborts). -/
theorem decrement_at_zero_clamps_and_warns (options : Options) (st : GlobalState)
    (gid : Nat) (hN : options.DisableNesting = false) (h0 : st.depth gid = 0) :
    (_decrementDepth options st gid).1.depth gid = 0 ∧
    (_decrementDepth options st gid).2 = [warningLine] ∧
    (∀ g, 0 ≤ st.depth g → 0 ≤ (_decrementDepth options st gid).1.depth g) := by
  have hlt : st.depth gid - 1 < 0 := by omega
  refine ⟨?_, ?_, ?_⟩
  · simp [_decrementDepth, hN, hlt, updDepth]
  · simp [_decrementDepth, hN, hlt]
  · intro g hg
    simp only [_decrementDepth, hN, Bool.not_false, if_true, hlt, updDepth]
    split <;> omega

/-- Witness for C4: the depth for goroutine 1 starts at 0 in the fresh state
and one decrement clamps it and warns once. -/
theorem decrement_at_zero_clamps_and_warns_witness :
    (_decrementDepth (New none) gInit 1).1.depth 1 = 0 ∧
    (_decrementDepth (New none) gInit 1).2 = [warningLine] ∧
    (∀ g, 0 ≤ gInit.depth g → 0 ≤ (_decrementDepth (New none) gInit 1).1.depth g) :=
  decrement_at_zero_clamps_and_warns (New none) gInit 1 (by decide) (by decide)

/-- C7: a single string argument is embedded verbatim as the suffix of the
tid tag — no `$FN` substitution touches it and the resolved function name
does not appear — and with no arguments the message body is empty, so the
label is exactly the tid tag followed by `"]=>"`. -/
theorem single_string_and_noargs_labels (cs : CallSite) (s : String) :
    _getname cs [GoVal.str s] = "[tid:" ++ toString cs.gid ++ " - " ++ s ++ "]=>" ∧
    _getname cs [] = "[tid:" ++ toString cs.gid ++ "]=>" := by
  constructor <;>
  · apply strEqOfData
    simp [_getname, replaceFN_empty, appendEmpty, dataAppend, List.append_assoc]

/-- C9: when the first variadic argument is not a string, all arguments are
ignored: the label equals the one produced by an argument-less enter. -/
theorem nonstring_first_arg_ignored (cs : CallSite) (v : GoVal) (rest : List GoVal)
    (hv : v.isString = false) :
    _getname cs (v :: rest) = _getname cs [] := by
  cases v with
  | str s => simp [GoVal.isString] at hv
  | intV n => rfl

/-- Witness for C9: enter(42, 43) produces the same label as enter(). -/
theorem nonstring_first_arg_ignored_witness :
    _getname ⟨1, true, "main.foo", "", 0⟩ [GoVal.intV 42, GoVal.intV 43] =
      _getname ⟨1, true, "main.foo", "", 0⟩ [] :=
  nonstring_first_arg_ignored ⟨1, true, "main.foo", "", 0⟩ (GoVal.intV 42)
    [GoVal.intV 43] rfl

/-- C10: with nesting disabled, `_spacify` renders the empty string whatever
`DisableDepthValue` is, so every emitted line starts directly with the
configured message prefix — the bracketed depth value is never rendered. -/
theorem nesting_disabled_omits_depth_prefix (options : Options) (st : GlobalState)
    (cs : CallSite) (args : List GoVal) (d : Int)
    (hT : options.DisableTracing = false) (hN : options.DisableNesting = true) :
    _spacify options d = "" ∧
    (tracerEnter options st cs args).2 = [options.EnterMessage ++ _getname cs args] ∧
    ∃ suffix, (tracerExit options st cs).2 = [options.ExitMessage ++ suffix] := by
  have hsp : ∀ e : Int, _spacify options e = "" := by
    intro e; simp [_spacify, hN]
  refine ⟨hsp d, ?_, ?_⟩
  · rw [enter_line options st cs args hT, hsp]
    rw [emptyAppend]
  · rw [exit_line options st cs hT (Or.inr hN), hsp]
    exact ⟨_, by rw [emptyAppend]⟩

/-- Witness for C10: a tracer with nesting disabled but the depth value NOT
disabled still emits prefix-free lines. -/
theorem nesting_disabled_omits_depth_prefix_witness :
    _spacify (New (some { zeroOptions with DisableNesting := true })) 0 = "" ∧
    (tracerEnter (New (some { zeroOptions with DisableNesting := true }))
        (NewState (some { zeroOptions with DisableNesting := true }) gInit)
        ⟨1, true, "main.foo", "", 0⟩ []).2 =
      [(New (some { zeroOptions with DisableNesting := true })).EnterMessage ++
        _getname ⟨1, true, "main.foo", "", 0⟩ []] ∧
    ∃ suffix,
      (tracerExit (New (some { zeroOptions with DisableNesting := true }))
          (NewState (some { zeroOptions with DisableNesting := true }) gInit)
          ⟨1, true, "main.foo", "", 0⟩).2 =
        [(New (some { zeroOptions with DisableNesting := true })).ExitMessage ++ suffix] :=
  nesting_disabled_omits_depth_prefix _ _ ⟨1, true, "main.foo", "", 0⟩ [] 0
    (by decide) (by decide)

/-- C8: with `DisableTracing` set, `New` allocates neither map and the no-op
closures it returns write zero lines and never touch the package state, for
every sequence of enter/exit calls. -/
theorem disabled_tracer_noop (options : Options) (hT : options.DisableTracing = true)
    (ops : List TraceOp) (st : GlobalState) :
    runOps options ops st = (st, []) ∧ NewState (some options) st = st := by
  constructor
  · induction ops generalizing st with
    | nil => rfl
    | cons op ops ih =>
        cases op <;> simp [runOps, tracerEnter, tracerExit, hT, ih]
  · simp [NewState, hT]

/-- Witness for C8: a disabled tracer run over an enter/exit pair changes
nothing and emits nothing. -/
theorem disabled_tracer_noop_witness :
    runOps { zeroOptions with DisableTracing := true }
        [TraceOp.enterOp ⟨1, true, "main.foo", "", 0⟩ [],
         TraceOp.exitOp ⟨1, true, "main.foo", "", 1⟩] gInit = (gInit, []) ∧
    NewState (some { zeroOptions with DisableTracing := true }) gInit = gInit :=
  disabled_tracer_noop { zeroOptions with DisableTracing := true } rfl
    [TraceOp.enterOp ⟨1, true, "main.foo", "", 0⟩ [],
     TraceOp.exitOp ⟨1, true, "main.foo", "", 1⟩] gInit

/-- C2 counterexample: the Go runtime reports a function `foo` of package
`main` as `main.foo`; the strip regex removes only a path up to a `'/'`, so
the package qualifier survives and `enter("$FN(%d)", 2)` emits the body
`main.foo(2)`, not `foo(2)` as the claim states. -/
theorem strip_counterexample :
    stripFnPreamble "main.foo" = "main.foo" ∧
    _getname ⟨1, true, "main.foo", "", 0⟩ [GoVal.str "$FN(%d)", GoVal.intV 2] =
      "[tid:1]=>main.foo(2)" ∧
    _getname ⟨1, true, "main.foo", "", 0⟩ [GoVal.str "$FN(%d)", GoVal.intV 2] ≠
      "[tid:1]=>foo(2)" := by decide

/-- C2 (amended): only the path qualification up to the last `'/'` is
stripped from the resolved caller name; the package qualifier before the
final dot remains. A name with no `'/'` is kept whole, and a path-qualified
name keeps its final path component; consequently `enter("$FN(%d)", 2)`
inside function `foo` of package `main` emits the body `main.foo(2)`. -/
theorem strip_keeps_package_qualifier (pre post : String)
    (hpost : ∀ c ∈ post.data, c ≠ '/') :
    stripFnPreamble (pre ++ "/" ++ post) = post ∧
    stripFnPreamble post = post ∧
    _getname ⟨1, true, "main.foo", "", 0⟩ [GoVal.str "$FN(%d)", GoVal.intV 2] =
      "[tid:1]=>main.foo(2)" := by
  have hrev : ∀ c ∈ post.data.reverse, c ≠ '/' :=
    fun c hc => hpost c (List.mem_reverse.mp hc)
  refine ⟨?_, ?_, by decide⟩
  · apply strEqOfData
    have hdata : (pre ++ "/" ++ post).data = pre.data ++ '/' :: post.data := by
      rw [dataAppend, dataAppend, List.append_assoc]; rfl
    show afterLastSlash (pre ++ "/" ++ post).data = post.data
    rw [hdata]
    unfold afterLastSlash
    rw [List.reverse_append, List.reverse_cons, List.append_assoc,
      List.singleton_append, takeWhile_append_slash _ _ hrev, List.reverse_reverse]
  · apply strEqOfData
    show afterLastSlash post.data = post.data
    unfold afterLastSlash
    rw [takeWhile_all_no_slash _ hrev, List.reverse_reverse]

/-- Witness for C2 (amended), on the path-qualified runtime name
`github.com/user/pkg.foo`: the path goes, `pkg.foo` stays. -/
theorem strip_keeps_package_qualifier_witness :
    (∀ c ∈ ("pkg.foo" : String).data, c ≠ '/') ∧
    (stripFnPreamble ("github.com/user" ++ "/" ++ "pkg.foo") = "pkg.foo" ∧
     stripFnPreamble "pkg.foo" = "pkg.foo" ∧
     _getname ⟨1, true, "main.foo", "", 0⟩ [GoVal.str "$FN(%d)", GoVal.intV 2] =
       "[tid:1]=>main.foo(2)") :=
  ⟨by decide, strip_keeps_package_qualifier "github.com/user" "pkg.foo" (by decide)⟩

/-- C1 counterexample: with instrumentation on, an enter with format
arguments records the label `[tid:1]=>x7` at time 5; the matching exit
rebuilds the argument-less label `[tid:1]=>`, finds no entry for it — yet
its line still carries an elapsed suffix, computed from the zero time: the
full clock value 100, not the actual elapsed 95 and not zero/absent. -/
theorem exit_elapsed_counterexample :
    (tracerExit optsInstr
        (tracerEnter optsInstr stInstr ⟨1, true, "main.foo", "", 5⟩
          [GoVal.str "x%d", GoVal.intV 7]).1
        ⟨1, true, "main.foo", "", 100⟩).2 =
      ["[ 0]EXIT:  [tid:1]=> ... in 100"] ∧
    ("[ 0]EXIT:  [tid:1]=> ... in 100" : String) ≠ "[ 0]EXIT:  [tid:1]=>" ∧
    ("[ 0]EXIT:  [tid:1]=> ... in 100" : String) ≠ "[ 0]EXIT:  [tid:1]=> ... in 95" ∧
    ("[ 0]EXIT:  [tid:1]=> ... in 100" : String) ≠ "[ 0]EXIT:  [tid:1]=> ... in 0" := by
  decide

/-- C1 (amended): with instrumentation enabled the exit line always carries
the `" ... in <duration>"` suffix; the duration is measured from the
recorded start when the exit's rebuilt label is present in the timing table,
and from the zero time — i.e. it is the full clock value, not zero/absent —
when the label is missing, which is what happens whenever the matching enter
was given arguments, since its recorded label then differs from the exit's
argument-less one. -/
theorem exit_always_appends_elapsed (options : Options) (st : GlobalState)
    (cs : CallSite) (hT : options.DisableTracing = false)
    (hI : options.EnableInstrumentation = true) :
    (tracerExit options st cs).2 =
      (_decrementDepth options st cs.gid).2 ++
        [_spacify options ((_decrementDepth options st cs.gid).1.depth cs.gid) ++
          options.ExitMessage ++
          (_getname cs [] ++ " ... in " ++
            durString (cs.now - ((st.entryTime (_getname cs [])).getD 0)))] ∧
    (st.entryTime (_getname cs []) = none →
      cs.now - ((st.entryTime (_getname cs [])).getD 0) = cs.now) := by
  constructor
  · simp only [tracerExit, hT, Bool.false_eq_true, if_false, _exit, hI, if_true,
      decrement_entryTime]
  · intro hnone
    rw [hnone]
    simp

/-- Witness for C1 (amended) at a concrete call site. -/
theorem exit_always_appends_elapsed_witness :
    (tracerExit optsInstr stInstr ⟨1, true, "main.foo", "", 100⟩).2 =
      (_decrementDepth optsInstr stInstr 1).2 ++
        [_spacify optsInstr ((_decrementDepth optsInstr stInstr 1).1.depth 1) ++
          optsInstr.ExitMessage ++
          (_getname ⟨1, true, "main.foo", "", 100⟩ [] ++ " ... in " ++
            durString (100 -
              ((stInstr.entryTime (_getname ⟨1, true, "main.foo", "", 100⟩ [])).getD 0)))] ∧
    (stInstr.entryTime (_getname ⟨1, true, "main.foo", "", 100⟩ []) = none →
      100 - ((stInstr.entryTime (_getname ⟨1, true, "main.foo", "", 100⟩ [])).getD 0) =
        100) :=
  exit_always_appends_elapsed optsInstr stInstr ⟨1, true, "main.foo", "", 100⟩
    (by decide) (by decide)

/-- C3 (code bug): with instrumentation on, an argument-less enter records
the label `[tid:1]=>` at time 5, but the matching exit's
`delete(entryTime.t, fname)` runs after `fname` has been mutated to carry
the `" ... in 4"` suffix, so it deletes a key that was never stored: the
enter's timing entry survives the completed enter/exit pair. -/
theorem timing_entry_survives_matching_exit :
    ((tracerEnter optsInstr stInstr ⟨1, true, "main.foo", "", 5⟩ []).1).entryTime
        "[tid:1]=>" = some 5 ∧
    ((tracerExit optsInstr
        (tracerEnter optsInstr stInstr ⟨1, true, "main.foo", "", 5⟩ []).1
        ⟨1, true, "main.foo", "", 9⟩).1).entryTime "[tid:1]=>" = some 5 ∧
    (tracerExit optsInstr
        (tracerEnter optsInstr stInstr ⟨1, true, "main.foo", "", 5⟩ []).1
        ⟨1, true, "main.foo", "", 9⟩).2 = ["[ 0]EXIT:  [tid:1]=> ... in 4"] := by
  decide

/-- C5 (code bug): the depth map is package-level, shared by every tracer
`New` returns. Before any activity, tracer B would print depth 0 for
goroutine 3; after one enter through tracer A, the shared depth for
goroutine 3 is 1 and B's next enter line reports depth 1 with a two-space
indent — activity through A changed what B observes. -/
theorem cross_instance_interference :
    (tracerEnter optsB stShared ⟨3, true, "main.bar", "", 0⟩ []).2 =
      ["[ 0]B-ENTER: [tid:3]=>"] ∧
    ((tracerEnter optsA stShared ⟨3, true, "main.foo", "", 0⟩ []).1).depth 3 = 1 ∧
    (tracerEnter optsB (tracerEnter optsA stShared ⟨3, true, "main.foo", "", 0⟩ []).1
        ⟨3, true, "main.bar", "", 0⟩ []).2 = ["[ 1]  B-ENTER: [tid:3]=>"] := by
  decide

/-- C6: for a strictly nested traced call executed on one context from a
state with non-negative depth, the enter line is printed with the indent of
the depth before the call (the increment is deferred past the print), the
matching exit line is printed after the decrement with that same indent, and
the depth is restored when the pair completes. -/
theorem enter_exit_lines_same_depth (options : Options) (cs : CallSite)
    (args : List GoVal) (children : List CallTree) (st : GlobalState)
    (hT : options.DisableTracing = false) (hd : 0 ≤ st.depth cs.gid) :
    ∃ mid suffix,
      (runForest options cs [CallTree.node args children] st).2 =
        (_spacify options (st.depth cs.gid) ++ options.EnterMessage ++ _getname cs args)
          :: (mid ++ [_spacify options (st.depth cs.gid) ++ options.ExitMessage ++ suffix]) ∧
      (runForest options cs [CallTree.node args children] st).1.depth cs.gid =
        st.depth cs.gid := by
  have h1 := enter_depth options st cs args hT
  have h1n : 0 ≤ (tracerEnter options st cs args).1.depth cs.gid := by
    rw [h1]; split <;> omega
  have h2 : (runForest options cs children
        (tracerEnter options st cs args).1).1.depth cs.gid =
      (tracerEnter options st cs args).1.depth cs.gid :=
    runForest_depth_restore options cs hT children _ h1n
  have hpos : 0 < (runForest options cs children
        (tracerEnter options st cs args).1).1.depth cs.gid ∨
      options.DisableNesting = true := by
    rw [h2, h1]
    cases hN : options.DisableNesting with
    | false => refine Or.inl ?_; simp [hN]; omega
    | true => exact Or.inr rfl
  have hxl := exit_line options
    (runForest options cs children (tracerEnter options st cs args).1).1 cs hT hpos
  have hsame : (if options.DisableNesting then (runForest options cs children
        (tracerEnter options st cs args).1).1.depth cs.gid
      else (runForest options cs children
        (tracerEnter options st cs args).1).1.depth cs.gid - 1) = st.depth cs.gid := by
    rw [h2, h1]; cases hN : options.DisableNesting <;> simp
  refine ⟨(runForest options cs children (tracerEnter options st cs args).1).2,
    exitFname options (runForest options cs children
      (tracerEnter options st cs args).1).1.entryTime cs, ?_, ?_⟩
  · simp only [runForest]
    rw [enter_line options st cs args hT, hxl, hsame]
    simp
  · exact runForest_depth_restore options cs hT [CallTree.node args children] st hd

/-- Witness for C6: a concrete nested pair of traced calls through a default
tracer from the fresh state. -/
theorem enter_exit_lines_same_depth_witness :
    ∃ mid suffix,
      (runForest (New none) ⟨1, true, "main.foo", "", 0⟩
          [CallTree.node [] [CallTree.node [] []]] (NewState none gInit)).2 =
        (_spacify (New none) ((NewState none gInit).depth 1) ++
            (New none).EnterMessage ++ _getname ⟨1, true, "main.foo", "", 0⟩ [])
          :: (mid ++ [_spacify (New none) ((NewState none gInit).depth 1) ++
            (New none).ExitMessage ++ suffix]) ∧
      (runForest (New none) ⟨1, true, "main.foo", "", 0⟩
          [CallTree.node [] [CallTree.node [] []]] (NewState none gInit)).1.depth 1 =
        (NewState none gInit).depth 1 :=
  enter_exit_lines_same_depth (New none) ⟨1, true, "main.foo", "", 0⟩ []
    [CallTree.node [] []] (NewState none gInit) (by decide) (by decide)

end Tracey
